import Mathlib

/-!
Verification of the sozu fragment: the backend pool manager
(`src/lib/src/network/backends.rs`) and the HTTP/2 connection state machine
(`src/lib/src/protocol/h2/state.rs`), shallowly embedded in Lean 4.

Conventions of the embedding:
* `VecDeque` is a `List` (push_back appends, pop_front takes the head).
* Byte slices are `List Nat` (each entry < 256 by construction of inputs).
* Functions that can diverge by a Rust `panic` / `unwrap` failure return
  `Option`: `none` models the panic.
* Collaborators of the two source files that live outside `src/`
  (the nom-based frame parser and serializer, the hpack decoder, the
  `Backend` record with its methods, `ConnectionError`) are modelled from
  the spec; each such definition carries a doc comment saying so.
-/

namespace Sozu

/-- Readiness interest set, modelling `mio::unix::UnixReady` as the four
flags the spec names: readable, writable, hup, error. -/
structure UnixReadyM where
  readable : Bool
  writable : Bool
  hup : Bool
  error : Bool
  deriving Repr, DecidableEq

/-- Frame type tags of the 8-bit type byte (parser collaborator). -/
inductive FrameType where
  | dataF
  | headers
  | priority
  | rstStream
  | settings
  | pushPromise
  | ping
  | goAway
  | windowUpdate
  | continuation
  | unknown (b : Nat)
  deriving Repr, DecidableEq

/-- Modelled from the spec: the frame parser's mapping from the 8-bit type
byte to a frame type tag, following the standard H/2 numbering (the parser
module `parser.rs` is not under `src/`). -/
def byteToFrameType (b : Nat) : FrameType :=
  if b = 0 then .dataF
  else if b = 1 then .headers
  else if b = 2 then .priority
  else if b = 3 then .rstStream
  else if b = 4 then .settings
  else if b = 5 then .pushPromise
  else if b = 6 then .ping
  else if b = 7 then .goAway
  else if b = 8 then .windowUpdate
  else if b = 9 then .continuation
  else .unknown b

/-- The 9-byte frame header: 24-bit payload length, type tag, 8-bit flags,
31-bit stream id (mirrors `parser::FrameHeader`). -/
structure FrameHeader where
  payload_len : Nat
  frame_type : FrameType
  flags : Nat
  stream_id : Nat
  deriving Repr, DecidableEq

/-- Modelled from the spec: a parsed frame (`parser::Frame`, not under
`src/`). The spec's parsing contract fixes only the 9-byte header followed
by a payload of the declared length, so the frame is modelled as its header
plus raw payload bytes; `state.rs` dispatches on the type tag, and for
HEADERS consumes the header block fragment, modelled here as the payload. -/
structure Frame where
  header : FrameHeader
  payload : List Nat
  deriving Repr, DecidableEq

/-- Total byte length of a frame on the wire: 9 header bytes + payload. -/
def Frame.byteLen (f : Frame) : Nat := 9 + f.header.payload_len

/-- The literal 24-byte H/2 connection preface
"PRI * HTTP/2.0 CRLF CRLF SM CRLF CRLF". -/
def prefaceBytes : List Nat :=
  [80, 82, 73, 32, 42, 32, 72, 84, 84, 80, 47, 50, 46, 48, 13, 10, 13, 10,
   83, 77, 13, 10, 13, 10]

/-- Modelled from the spec: `parser::preface` (not under `src/`) consumes
exactly the literal 24-byte preface, returning the remaining input;
anything else (including a short input) is a framing error. -/
def prefaceParse (input : List Nat) : Except Unit (List Nat) :=
  if input.take 24 = prefaceBytes then .ok (input.drop 24) else .error ()

/-- The 24-bit payload length declared by the first three header bytes. -/
def frameLen (input : List Nat) : Nat :=
  input.getD 0 0 * 65536 + input.getD 1 0 * 256 + input.getD 2 0

/-- The 9-byte frame header decoded from the head of the input: 24-bit
payload length, 8-bit type, 8-bit flags, 1 reserved bit, 31-bit stream
id. -/
def frameHeaderOf (input : List Nat) : FrameHeader :=
  { payload_len := frameLen input
    frame_type := byteToFrameType (input.getD 3 0)
    flags := input.getD 4 0
    stream_id := (input.getD 5 0 % 128) * 16777216 +
      input.getD 6 0 * 65536 + input.getD 7 0 * 256 + input.getD 8 0 }

/-- Modelled from the spec: `parser::frame` (not under `src/`) recognizes
the 9-byte fixed header then a payload of the declared length; a declared
payload length above `max_frame_size` is a framing error, as is an
incomplete input. On success it returns the remaining input past the
frame together with the parsed frame. -/
def frameParse (input : List Nat) (max_frame_size : Nat) :
    Except Unit (List Nat × Frame) :=
  if input.length < 9 then .error ()
  else if frameLen input > max_frame_size then .error ()
  else if input.length < 9 + frameLen input then .error ()
  else
    .ok (input.drop (9 + frameLen input),
      ⟨frameHeaderOf input, (input.drop 9).take (frameLen input)⟩)

/-- An H/2 frame queued for serialization (`OutputFrame` in `state.rs`). -/
structure OutputFrame where
  header : FrameHeader
  payload : Option (List Nat)
  deriving Repr, DecidableEq

/-- The discrete connection state (`St` in `state.rs`). -/
inductive St where
  | Init
  | ClientPrefaceReceived
  | ServerPrefaceSent
  deriving Repr, DecidableEq

/-- Per-connection H/2 state (`State` in `state.rs`). -/
structure State where
  output : List OutputFrame
  state : St
  interest : UnixReadyM
  max_frame_size : Nat
  deriving Repr, DecidableEq

/-- `State::new`: empty queue, `Init`, interest readable | hup | error,
max_frame_size 16384. -/
def State.new : State :=
  { output := []
    state := .Init
    interest := { readable := true, writable := false, hup := true, error := true }
    max_frame_size := 16384 }

/-- `State::parse`: in `Init` first consume the preface (advancing the state
to `ClientPrefaceReceived` and accumulating the consumed byte count), then
parse one frame. Returns the updated state, the number of bytes consumed
from the head of the input, and the parsed frame or a framing error.
`input.length - rest.length` is the list rendering of nom's `offset`. -/
def State.parse (s : State) (input : List Nat) :
    State × Nat × Except Unit Frame :=
  if s.state = St.Init then
    match prefaceParse input with
    | .error _ => (s, 0, .error ())
    | .ok rest =>
      match frameParse rest s.max_frame_size with
      | .error _ =>
        ({ s with state := St.ClientPrefaceReceived },
         input.length - rest.length, .error ())
      | .ok (rest2, f) =>
        ({ s with state := St.ClientPrefaceReceived },
         input.length - rest.length + (rest.length - rest2.length), .ok f)
  else
    match frameParse input s.max_frame_size with
    | .error _ => (s, 0, .error ())
    | .ok (rest2, f) => (s, input.length - rest2.length, .ok f)

/-- A decoded header list: pairs of raw name bytes and value bytes. -/
def HeaderList : Type := List (List Nat × List Nat)

/-- Modelled from the spec: the hpack decoder collaborator,
`decode(block) -> list of (name bytes, value bytes)` or a decode error.
`state.rs` builds a fresh decoder per HEADERS frame; its behaviour is
external, so `handle` is parameterized by the decode function. -/
def HpackDecoder : Type := List Nat → Except Unit HeaderList

/-- Checks whether a byte sequence is valid UTF-8, modelling
`std::str::from_utf8` succeeding. Standard table: ASCII, 2-byte forms
C2-DF, 3-byte forms E0-EF with their continuation constraints, 4-byte
forms F0-F4 likewise; continuation bytes are 80-BF. -/
def isValidUtf8 : List Nat → Bool
  | [] => true
  | b :: rest =>
    if b < 128 then isValidUtf8 rest
    else if 194 ≤ b ∧ b ≤ 223 then
      match rest with
      | c1 :: rest1 => decide (128 ≤ c1 ∧ c1 ≤ 191) && isValidUtf8 rest1
      | [] => false
    else if 224 ≤ b ∧ b ≤ 239 then
      match rest with
      | c1 :: c2 :: rest2 =>
        let lo1 := if b = 224 then 160 else 128
        let hi1 := if b = 237 then 159 else 191
        decide (lo1 ≤ c1 ∧ c1 ≤ hi1) && decide (128 ≤ c2 ∧ c2 ≤ 191) &&
          isValidUtf8 rest2
      | _ => false
    else if 240 ≤ b ∧ b ≤ 244 then
      match rest with
      | c1 :: c2 :: c3 :: rest3 =>
        let lo1 := if b = 240 then 144 else 128
        let hi1 := if b = 244 then 143 else 191
        decide (lo1 ≤ c1 ∧ c1 ≤ hi1) && decide (128 ≤ c2 ∧ c2 ≤ 191) &&
          decide (128 ≤ c3 ∧ c3 ≤ 191) && isValidUtf8 rest3
      | _ => false
    else false

/-- The SETTINGS ACK frame `handle` enqueues: payload_len 0, type SETTINGS,
flags 1, stream id 0, no payload. -/
def serverSettingsAck : OutputFrame :=
  { header := { payload_len := 0, frame_type := .settings, flags := 1, stream_id := 0 }
    payload := none }

/-- `State::handle`: applies a frame to the state machine and returns the
keep-alive flag. `none` models a Rust panic: the `unimplemented` arm for a
non-SETTINGS frame in `ClientPrefaceReceived`, the panicking arm for a
non-HEADERS frame in `ServerPrefaceSent`, and the `from_utf8(..).unwrap()`
calls on each decoded header name and value while logging. -/
def State.handle (decode : HpackDecoder) (s : State) (f : Frame) :
    Option (State × Bool) :=
  match s.state with
  | .Init => some (s, true)
  | .ClientPrefaceReceived =>
    match f.header.frame_type with
    | .settings =>
      some ({ s with
                output := s.output ++ [serverSettingsAck]
                state := .ServerPrefaceSent
                interest := { s.interest with writable := true } }, true)
    | _ => none
  | .ServerPrefaceSent =>
    match f.header.frame_type with
    | .headers =>
      match decode f.payload with
      | .error _ => some (s, false)
      | .ok hs =>
        if hs.all (fun p => isValidUtf8 p.1 && isValidUtf8 p.2) then
          some (s, false)
        else none
    | _ => none

/-- `State::parse_and_handle`: compose `parse` and `handle`; on parse error
return the consumed count and `false`. -/
def State.parse_and_handle (decode : HpackDecoder) (s : State)
    (input : List Nat) : Option (State × Nat × Bool) :=
  match s.parse input with
  | (s1, sz, .error _) => some (s1, sz, false)
  | (s1, sz, .ok f) =>
    match s1.handle decode f with
    | none => none
    | some (s2, b) => some (s2, sz, b)

/-- Modelled from the spec: `serializer::gen_frame_header` (not under
`src/`) writes the 9-byte header at the given position of a buffer of the
given length, returning the index past the written bytes, or an error when
the buffer is too small. -/
def gen_frame_header (buflen pos : Nat) (_h : FrameHeader) : Except Unit Nat :=
  if pos + 9 ≤ buflen then .ok (pos + 9) else .error ()

/-- `State::gen`: pop the front OutputFrame and serialize its header into
the buffer (a serialization error is a panic, modelled as `none`),
returning the written byte count; when the queue is empty, remove
`writable` from the interest and write 0 bytes. -/
def State.gen (s : State) (buflen : Nat) : Option (State × Nat) :=
  match s.output with
  | f :: rest =>
    match gen_frame_header buflen 0 f.header with
    | .error _ => none
    | .ok index => some ({ s with output := rest }, index)
  | [] =>
    some ({ s with interest := { s.interest with writable := false } }, 0)

/-! Backend pool (`src/lib/src/network/backends.rs`). Socket addresses are
modelled as `Nat`, backend sockets as `Nat` handles, app ids as `String`. -/

/-- Modelled from the spec: the `ConnectionError` type (not under `src/`).
The spec names `NoBackendAvailable`; every other connect failure is
abstracted as `Other` with a code. -/
inductive ConnectionError where
  | NoBackendAvailable
  | Other (code : Nat)
  deriving Repr, DecidableEq

/-- Outcome oracle of one `try_connect` call on a backend: a socket handle
or a connection error. -/
inductive ConnResult where
  | ok (socket : Nat)
  | fail (e : ConnectionError)
  deriving Repr, DecidableEq

/-- Modelled from the spec: the external `Backend` record (not under
`src/`): stable id, address, counters, and its two behavioural methods
rendered as oracle fields — `canOpenB` is the value `can_open()` returns
and `connectResult` the outcome `try_connect` produces. -/
structure Backend where
  instance_id : String
  address : Nat
  id : Nat
  active_connections : Nat
  failures : Nat
  canOpenB : Bool
  connectResult : ConnResult
  deriving Repr, DecidableEq

/-- Modelled from the spec: `Backend::new(instance_id, address, id)` —
fresh counters; a fresh backend is eligible and its future connect outcome
is external (fixed here to a successful handle 0). -/
def Backend.new (iid : String) (addr : Nat) (id : Nat) : Backend :=
  { instance_id := iid, address := addr, id := id,
    active_connections := 0, failures := 0,
    canOpenB := true, connectResult := .ok 0 }

instance : Inhabited Backend := ⟨Backend.new "" 0 0⟩

/-- Trace entry: which Backend method was invoked, on which backend id. -/
inductive MCall where
  | canOpen (id : Nat)
  | tryConnect (id : Nat)
  deriving Repr, DecidableEq

/-- One `try_connect` invocation: the verbatim result (paired with the
chosen backend, as the source returns `(b.clone(), socket)`), and the
trace of the call. -/
def tryConnectCall (b : Backend) :
    Except ConnectionError (Backend × Nat) × List MCall :=
  match b.connectResult with
  | .ok s => (.ok (b, s), [.tryConnect b.id])
  | .fail e => (.error e, [.tryConnect b.id])

/-- The ordered backend collection of one application (`BackendList`).
`next_id` is a `u32`, so increments are taken modulo 2^32. -/
structure BackendList where
  instances : List Backend
  next_id : Nat
  deriving Repr, DecidableEq

/-- `BackendList::new`. -/
def BackendList.new : BackendList := { instances := [], next_id := 0 }

/-- `BackendList::has_instance`: membership by address. -/
def BackendList.has_instance (l : BackendList) (addr : Nat) : Bool :=
  l.instances.any (fun b => b.address = addr)

/-- `BackendList::add_instance`: if no entry with this address exists,
append `Backend::new` with id `next_id` and increment `next_id` (u32
wrap-around modelled by the modulus); otherwise no-op. -/
def BackendList.add_instance (l : BackendList) (iid : String) (addr : Nat) :
    BackendList :=
  if (l.instances.find? (fun b => b.address = addr)).isNone then
    { instances := l.instances ++ [Backend.new iid addr l.next_id]
      next_id := (l.next_id + 1) % 4294967296 }
  else l

/-- `BackendList::remove_instance`: retain every backend whose address
differs. -/
def BackendList.remove_instance (l : BackendList) (addr : Nat) : BackendList :=
  { l with instances := l.instances.filter (fun b => b.address ≠ addr) }

/-- `BackendList::find_sticky`: the first backend whose id equals the
sticky session, kept only when `can_open()`; the trace records the
`can_open` call on the found backend. -/
def BackendList.find_sticky (l : BackendList) (sid : Nat) :
    Option Backend × List MCall :=
  match l.instances.find? (fun b => b.id = sid) with
  | none => (none, [])
  | some b => (if b.canOpenB then some b else none, [.canOpen b.id])

/-- `BackendList::available_instances`: the eligible backends; the trace
records a `can_open` call on every backend of the list. -/
def BackendList.available_instances (l : BackendList) :
    List Backend × List MCall :=
  (l.instances.filter (fun b => b.canOpenB),
   l.instances.map (fun b => .canOpen b.id))

/-- `BackendList::next_available_instance`: none when no backend is
eligible, otherwise the eligible backend at index `rnd % count`. -/
def BackendList.next_available_instance (l : BackendList) (rnd : Nat) :
    Option Backend × List MCall :=
  let (avail, tr) := l.available_instances
  if avail.isEmpty then (none, tr)
  else (some (avail.getD (rnd % avail.length) default), tr)

/-- Mapping from application id to backend list (`BackendMap`); the
`HashMap` is rendered as an association list with unique keys. -/
structure BackendMap where
  instances : List (String × BackendList)
  max_failures : Nat
  deriving Repr, DecidableEq

/-- `BackendMap::new`: empty map, retry budget 3. -/
def BackendMap.new : BackendMap := { instances := [], max_failures := 3 }

/-- `HashMap::get`: the value at the first binding of the key. -/
def listLookup (xs : List (String × BackendList)) (k : String) :
    Option BackendList :=
  (xs.find? (fun p => p.1 = k)).map (fun p => p.2)

/-- In-place update of the first binding of a key (`HashMap::get_mut`). -/
def updateApp (xs : List (String × BackendList)) (k : String)
    (f : BackendList → BackendList) : List (String × BackendList) :=
  match xs with
  | [] => []
  | (k0, v) :: rest =>
    if k0 = k then (k0, f v) :: rest else (k0, v) :: updateApp rest k f

/-- `BackendMap::add_instance`:
`entry(app).or_insert(BackendList::new()).add_instance(..)`. -/
def BackendMap.add_instance (m : BackendMap) (app iid : String) (addr : Nat) :
    BackendMap :=
  if (listLookup m.instances app).isSome then
    { m with instances :=
        updateApp m.instances app (fun l => l.add_instance iid addr) }
  else
    { m with instances :=
        m.instances ++ [(app, BackendList.new.add_instance iid addr)] }

/-- `BackendMap::remove_instance`: delegate to the app's list when present;
when the app is absent, leave the map unchanged and report a non-fatal
error (the Boolean flag models the `error!` log line). -/
def BackendMap.remove_instance (m : BackendMap) (app : String) (addr : Nat) :
    BackendMap × Bool :=
  if (listLookup m.instances app).isSome then
    ({ m with instances :=
        updateApp m.instances app (fun l => l.remove_instance addr) }, false)
  else (m, true)

/-- `BackendMap::has_backend`: membership of the backend's address in the
app's list. -/
def BackendMap.has_backend (m : BackendMap) (app : String) (b : Backend) :
    Bool :=
  match listLookup m.instances app with
  | some l => l.has_instance b.address
  | none => false

/-- The `for _ in 0..max_failures` loop body of `backend_from_app_id`.
Every branch of the source's loop body ends in `return`, so an iteration
never falls through to the next one; the fuel only decides whether the
body runs at all (fuel 0 falls out of the loop to `NoBackendAvailable`).
`rnd i` is the random draw of iteration `i`. -/
def selectLoop (l : BackendList) (rnd : Nat → Nat) :
    Nat → Nat → Except ConnectionError (Backend × Nat) × List MCall
  | 0, _ => (.error .NoBackendAvailable, [])
  | _ + 1, i =>
    match l.next_available_instance (rnd i) with
    | (some b, tr) =>
      let (res, tr2) := tryConnectCall b
      (res, tr ++ tr2)
    | (none, tr) => (.error .NoBackendAvailable, tr)

/-- `BackendMap::backend_from_app_id`: absent app or empty list fail with
`NoBackendAvailable` before touching any backend; otherwise run the retry
loop. Returns the selection result and the trace of Backend method calls. -/
def BackendMap.backend_from_app_id (m : BackendMap) (app : String)
    (rnd : Nat → Nat) :
    Except ConnectionError (Backend × Nat) × List MCall :=
  match listLookup m.instances app with
  | some l =>
    if l.instances.length = 0 then (.error .NoBackendAvailable, [])
    else selectLoop l rnd m.max_failures 0
  | none => (.error .NoBackendAvailable, [])

/-- `BackendMap::backend_from_sticky_session`: when the app's list holds an
eligible backend with the sticky id, one `try_connect` on it and the
verbatim result; otherwise fall through to `backend_from_app_id`. -/
def BackendMap.backend_from_sticky_session (m : BackendMap) (app : String)
    (sid : Nat) (rnd : Nat → Nat) :
    Except ConnectionError (Backend × Nat) × List MCall :=
  match (listLookup m.instances app).map (fun l => l.find_sticky sid) with
  | some (some b, tr) =>
    let (res, tr2) := tryConnectCall b
    (res, tr ++ tr2)
  | some (none, tr) =>
    let (res, tr2) := m.backend_from_app_id app rnd
    (res, tr ++ tr2)
  | none => m.backend_from_app_id app rnd

/-- A mutation of one `BackendList` during its lifetime: the two operations
that touch `next_id` or the instance vector. -/
inductive ListOp where
  | add (iid : String) (addr : Nat)
  | remove (addr : Nat)
  deriving Repr, DecidableEq

/-- Apply one lifetime operation to a list. -/
def BackendList.applyOp (l : BackendList) : ListOp → BackendList
  | .add iid addr => l.add_instance iid addr
  | .remove addr => l.remove_instance addr

/-- Apply a sequence of lifetime operations. -/
def BackendList.exec (l : BackendList) : List ListOp → BackendList
  | [] => l
  | op :: rest => (l.applyOp op).exec rest

/-- The ids handed out to newly created Backends along a sequence of
operations (one per `add_instance` call whose address was new). -/
def createdIds (l : BackendList) : List ListOp → List Nat
  | [] => []
  | op :: rest =>
    (match op with
     | .add _ addr =>
       if (l.instances.find? (fun b => b.address = addr)).isNone then
         [l.next_id]
       else []
     | .remove _ => []) ++ createdIds (l.applyOp op) rest

/-- Whether a trace entry is a `try_connect` invocation. -/
def MCall.isTryConnect : MCall → Bool
  | .tryConnect _ => true
  | .canOpen _ => false

end Sozu

namespace Sozu

/-! Theorems. -/

/-- C4: when the state is `ClientPrefaceReceived` and `handle` is applied
to a SETTINGS frame, exactly one OutputFrame with header payload_len 0,
type SETTINGS, flags 1, stream id 0 and no payload is appended to the
output queue, the state becomes `ServerPrefaceSent`, `writable` is added
to the interest set, and `handle` returns true. -/
theorem c4_handle_settings_ack (decode : HpackDecoder) (s : State) (f : Frame)
    (hst : s.state = St.ClientPrefaceReceived)
    (hft : f.header.frame_type = FrameType.settings) :
    s.handle decode f =
      some ({ output := s.output ++
                [⟨{ payload_len := 0, frame_type := .settings, flags := 1,
                    stream_id := 0 }, none⟩]
              state := St.ServerPrefaceSent
              interest := { s.interest with writable := true }
              max_frame_size := s.max_frame_size }, true) := by
  unfold State.handle
  rw [hst, hft]
  rfl

/-- Witness for C4 at a concrete state and frame. -/
theorem c4_handle_settings_ack_witness :
    State.handle (fun _ => .error ())
      { output := [], state := St.ClientPrefaceReceived,
        interest := { readable := true, writable := false, hup := true,
                      error := true },
        max_frame_size := 16384 }
      ⟨{ payload_len := 0, frame_type := .settings, flags := 0,
         stream_id := 0 }, []⟩ =
      some ({ output := [⟨{ payload_len := 0, frame_type := .settings,
                            flags := 1, stream_id := 0 }, none⟩]
              state := St.ServerPrefaceSent
              interest := { readable := true, writable := true, hup := true,
                            error := true }
              max_frame_size := 16384 }, true) :=
  c4_handle_settings_ack (fun _ => .error ()) _ _ rfl rfl

/-- C9: in `ServerPrefaceSent`, a HEADERS frame whose header block decodes
successfully but contains a name or value that is not valid UTF-8 makes
`handle` panic (the decoded bytes go through `from_utf8(..).unwrap()`), so
`handle` is not total over decodable header blocks; the panic is modelled
as `none`. -/
theorem c9_handle_headers_utf8_panic (decode : HpackDecoder) (s : State)
    (f : Frame) (hl : HeaderList)
    (hst : s.state = St.ServerPrefaceSent)
    (hft : f.header.frame_type = FrameType.headers)
    (hdec : decode f.payload = .ok hl)
    (hbad : (hl.all fun p => isValidUtf8 p.1 && isValidUtf8 p.2) = false) :
    s.handle decode f = none := by
  unfold State.handle
  rw [hst, hft, hdec]
  simp [hbad]

/-- Witness for C9: a decoder returning the single header (0xFF, empty),
whose name is not valid UTF-8. -/
theorem c9_handle_headers_utf8_panic_witness :
    State.handle (fun _ => .ok [([255], [])])
      { output := [], state := St.ServerPrefaceSent,
        interest := { readable := true, writable := false, hup := true,
                      error := true },
        max_frame_size := 16384 }
      ⟨{ payload_len := 4, frame_type := .headers, flags := 4,
         stream_id := 1 }, [255, 255, 255, 255]⟩ = none :=
  c9_handle_headers_utf8_panic (fun _ => .ok [([255], [])]) _ _
    [([255], [])] rfl rfl rfl (by decide)

/-- A successful preface parse consumes exactly the 24 preface bytes. -/
theorem prefaceParse_ok {input rest : List Nat}
    (h : prefaceParse input = .ok rest) :
    rest = input.drop 24 ∧ 24 ≤ input.length := by
  unfold prefaceParse at h
  split at h
  next heq =>
    injection h with h
    refine ⟨h.symm, ?_⟩
    have hlen := congrArg List.length heq
    simp [prefaceBytes] at hlen
    omega
  next => cases h

/-- A successful frame parse consumes exactly the 9 header bytes plus the
declared payload, which fits in the input. -/
theorem frameParse_ok {input : List Nat} {mfs : Nat} {rest : List Nat}
    {f : Frame} (h : frameParse input mfs = .ok (rest, f)) :
    rest = input.drop (9 + f.header.payload_len) ∧
    9 + f.header.payload_len ≤ input.length := by
  unfold frameParse at h
  split at h
  next => cases h
  next h9 =>
    split at h
    next => cases h
    next =>
      split at h
      next => cases h
      next hlen =>
        injection h with h
        injection h with h1 h2
        subst h2
        refine ⟨h1.symm, ?_⟩
        show 9 + frameLen input ≤ input.length
        omega

/-- C5: parse never reports more consumed bytes than the input holds, and
when it returns a parsed frame the consumed count is exactly that frame's
byte length (9-byte header plus payload), plus the 24-byte preface when
the state was Init. -/
theorem c5_parse_consumed_exact (s : State) (input : List Nat) :
    (s.parse input).2.1 ≤ input.length ∧
    ∀ f, (s.parse input).2.2 = .ok f →
      (s.parse input).2.1 =
        (if s.state = St.Init then 24 else 0) + f.byteLen := by
  unfold State.parse
  split
  next hinit =>
    cases hp : prefaceParse input with
    | error e => simp [hp]
    | ok rest =>
      obtain ⟨hrest, hlen⟩ := prefaceParse_ok hp
      subst hrest
      cases hf : frameParse (input.drop 24) s.max_frame_size with
      | error e =>
        simp [hp, hf]
      | ok rf =>
        obtain ⟨rest2, f⟩ := rf
        obtain ⟨hr2, hle⟩ := frameParse_ok hf
        subst hr2
        simp only [hp, hf]
        simp at hle
        refine ⟨?_, ?_⟩
        · simp
          omega
        · intro f2 hf2
          injection hf2 with hf2
          subst hf2
          simp [hinit, Frame.byteLen]
          omega
  next hinit =>
    cases hf : frameParse input s.max_frame_size with
    | error e => simp [hf]
    | ok rf =>
      obtain ⟨rest2, f⟩ := rf
      obtain ⟨hr2, hle⟩ := frameParse_ok hf
      subst hr2
      simp only [hf]
      refine ⟨?_, ?_⟩
      · simp
      · intro f2 hf2
        injection hf2 with hf2
        subst hf2
        simp [hinit, Frame.byteLen]
        omega

/-- The S5 wire bytes: the 24-byte preface followed by an empty SETTINGS
frame (9 bytes, type 0x04). -/
def wireS5 : List Nat := prefaceBytes ++ [0, 0, 0, 4, 0, 0, 0, 0, 0]

/-- Witness for C5 on the S5 wire bytes: 33 bytes consumed, i.e. the
24-byte preface plus the 9-byte length of the returned SETTINGS frame. -/
theorem c5_parse_consumed_exact_witness :
    (State.new.parse wireS5).2.1 ≤ wireS5.length ∧
    (State.new.parse wireS5).2.1 =
      24 + Frame.byteLen ⟨{ payload_len := 0, frame_type := .settings,
                            flags := 0, stream_id := 0 }, []⟩ :=
  ⟨(c5_parse_consumed_exact State.new wireS5).1,
   (c5_parse_consumed_exact State.new wireS5).2 _ rfl⟩

/-- C10: parse is not atomic on error. In `Init`, when the preface parses
but the following frame parse fails, parse reports the 24 preface bytes as
consumed together with the error, and the state has already advanced to
`ClientPrefaceReceived`; when the preface itself fails, parse returns
(0, error) and the state is unchanged. -/
theorem c10_parse_not_atomic (s : State) (input : List Nat) :
    (s.state = St.Init → prefaceParse input = .error () →
      s.parse input = (s, 0, .error ())) ∧
    (∀ rest, s.state = St.Init → prefaceParse input = .ok rest →
      frameParse rest s.max_frame_size = .error () →
      s.parse input =
        ({ s with state := St.ClientPrefaceReceived }, 24, .error ())) := by
  constructor
  · intro hinit hp
    unfold State.parse
    simp [hinit, hp]
  · intro rest hinit hp hf
    obtain ⟨hrest, hlen⟩ := prefaceParse_ok hp
    subst hrest
    unfold State.parse
    simp [hinit, hp, hf]
    omega

/-- Witness for C10: feeding exactly the preface advances the state and
reports 24 consumed bytes with an error (the empty remainder has no
frame); feeding one garbage byte consumes nothing and changes nothing. -/
theorem c10_parse_not_atomic_witness :
    State.new.parse prefaceBytes =
      ({ State.new with state := St.ClientPrefaceReceived }, 24,
        .error ()) ∧
    State.new.parse [0] = (State.new, 0, .error ()) :=
  ⟨(c10_parse_not_atomic State.new prefaceBytes).2 [] rfl rfl rfl,
   (c10_parse_not_atomic State.new [0]).1 rfl rfl⟩

/-- The writable-interest invariant the spec states: `writable` is in the
interest set iff the output queue is non-empty. -/
def writableInv (s : State) : Prop :=
  s.interest.writable = true ↔ s.output ≠ []

/-- Parse touches neither the output queue nor the interest set. -/
theorem parse_output_interest (s : State) (input : List Nat) :
    (s.parse input).1.output = s.output ∧
    (s.parse input).1.interest = s.interest := by
  unfold State.parse
  split
  · cases hp : prefaceParse input with
    | error e => simp [hp]
    | ok rest =>
      cases hf : frameParse rest s.max_frame_size with
      | error e => simp [hp, hf]
      | ok rf =>
        obtain ⟨rest2, f⟩ := rf
        simp [hp, hf]
  · cases hf : frameParse input s.max_frame_size with
    | error e => simp [hf]
    | ok rf =>
      obtain ⟨rest2, f⟩ := rf
      simp [hf]

/-- Parse preserves the writable-interest invariant. -/
theorem writableInv_parse (s : State) (input : List Nat)
    (h : writableInv s) : writableInv (s.parse input).1 := by
  have h2 := parse_output_interest s input
  unfold writableInv at *
  rw [h2.1, h2.2]
  exact h

/-- Handle preserves the writable-interest invariant whenever it returns
(does not panic). -/
theorem writableInv_handle (decode : HpackDecoder) (s : State) (f : Frame)
    (s2 : State) (b : Bool) (h : writableInv s)
    (heq : s.handle decode f = some (s2, b)) : writableInv s2 := by
  unfold State.handle at heq
  split at heq
  · injection heq with heq
    injection heq with h1 h2
    subst h1
    exact h
  · split at heq
    · injection heq with heq
      injection heq with h1 h2
      subst h1
      unfold writableInv
      simp
    · cases heq
  · split at heq
    · split at heq
      · injection heq with heq
        injection heq with h1 h2
        subst h1
        exact h
      · split at heq
        · injection heq with heq
          injection heq with h1 h2
          subst h1
          exact h
        · cases heq
    · cases heq

/-- The decoder used in the C1 scenario (never consulted on this path). -/
def c1decode : HpackDecoder := fun _ => .error ()

/-- The state after the S5 scenario: one queued SETTINGS ACK,
`ServerPrefaceSent`, all four interest flags set. -/
def s5afterHandle : State :=
  { output := [serverSettingsAck]
    state := .ServerPrefaceSent
    interest := { readable := true, writable := true, hup := true,
                  error := true }
    max_frame_size := 16384 }

/-- The state after draining the single queued frame with `gen`. -/
def s5drained : State := { s5afterHandle with output := [] }

/-- C1 is false as stated: run the S5 scenario (preface + empty SETTINGS)
from a fresh state, then one `gen` into a 9-byte buffer. The call pops the
last queued frame and writes 9 bytes, but `writable` stays in the interest
while the output queue is empty, so the iff-invariant does not hold right
after a `gen` that pops the last queued frame, and `writable` is not
removed by that call. -/
theorem c1_counterexample :
    State.parse_and_handle c1decode State.new wireS5 =
      some (s5afterHandle, 33, true) ∧
    State.gen s5afterHandle 9 = some (s5drained, 9) ∧
    s5drained.output = [] ∧ s5drained.interest.writable = true :=
  ⟨rfl, rfl, rfl, rfl⟩

/-- C1 amended: the equivalence (writable in interest iff output
non-empty) holds after `new`, `parse`, `handle` and `parse_and_handle`;
`gen` on an empty queue writes 0 bytes, removes `writable` and preserves
the equivalence, and `gen` leaving a non-empty queue preserves it too, but
a `gen` that pops the last queued frame leaves `writable` set with an
empty queue — the invariant is restored only by the subsequent `gen`,
which writes 0 bytes and removes `writable`. -/
theorem c1_amended_writable_interest :
    writableInv State.new ∧
    (∀ s input, writableInv s → writableInv (s.parse input).1) ∧
    (∀ decode s f s2 b, writableInv s →
      State.handle decode s f = some (s2, b) → writableInv s2) ∧
    (∀ decode s input s2 n b, writableInv s →
      State.parse_and_handle decode s input = some (s2, n, b) →
      writableInv s2) ∧
    (∀ s buflen s2 n, writableInv s → State.gen s buflen = some (s2, n) →
      ((s.output = [] → n = 0 ∧ s2.output = [] ∧
          s2.interest.writable = false ∧ writableInv s2) ∧
       (s2.output ≠ [] → writableInv s2) ∧
       (s.output.length = 1 → s2.output = [] ∧
          s2.interest.writable = true ∧
          State.gen s2 buflen =
            some ({ s2 with
              interest := { s2.interest with writable := false } }, 0)))) := by
  refine ⟨?_, writableInv_parse, writableInv_handle, ?_, ?_⟩
  · unfold writableInv State.new
    simp
  · intro decode s input s2 n b hinv heq
    have hp := writableInv_parse s input hinv
    rcases hps : s.parse input with ⟨s1, n1, r⟩
    rw [hps] at hp
    cases r with
    | error e =>
      simp only [State.parse_and_handle, hps] at heq
      injection heq with heq
      injection heq with h1 h2
      subst h1
      exact hp
    | ok f =>
      rcases hh : State.handle decode s1 f with _ | ⟨s3, b3⟩
      · simp only [State.parse_and_handle, hps, hh] at heq
        cases heq
      · simp only [State.parse_and_handle, hps, hh] at heq
        injection heq with heq
        injection heq with h1 h2
        subst h1
        exact writableInv_handle decode s1 f s3 b3 hp hh
  · intro s buflen s2 n hinv heq
    rcases hout : s.output with _ | ⟨f, rest⟩
    · simp only [State.gen, hout] at heq
      injection heq with heq
      injection heq with h1 h2
      subst h1
      refine ⟨fun _ => ⟨h2.symm, rfl, rfl, ?_⟩, fun _ => ?_, fun hlen => ?_⟩
      · simp [writableInv]
      · simp [writableInv]
      · simp at hlen
    · rcases hg : gen_frame_header buflen 0 f.header with _ | idx
      · simp only [State.gen, hout, hg] at heq
        cases heq
      · simp only [State.gen, hout, hg] at heq
        injection heq with heq
        injection heq with h1 h2
        subst h1
        have hw : s.interest.writable = true := by
          unfold writableInv at hinv
          rw [hinv, hout]
          simp
        refine ⟨fun hemp => ?_, fun hne => ?_, fun hlen => ?_⟩
        · simp at hemp
        · unfold writableInv at hne ⊢
          simp at hne ⊢
          exact ⟨fun _ => hne, fun _ => hw⟩
        · simp at hlen
          subst hlen
          refine ⟨rfl, hw, ?_⟩
          unfold State.gen
          simp

/-- Witness for C1 amended: the invariant holds for a fresh state, and the
drained S5 state has an empty queue with `writable` still set, cleared by
the subsequent `gen`. -/
theorem c1_amended_writable_interest_witness :
    writableInv State.new ∧
    (s5drained.output = [] ∧ s5drained.interest.writable = true ∧
      State.gen s5drained 9 =
        some ({ s5drained with
          interest := { s5drained.interest with writable := false } }, 0)) :=
  ⟨c1_amended_writable_interest.1,
   (c1_amended_writable_interest.2.2.2.2 s5afterHandle 9 s5drained 9
      (by unfold writableInv s5afterHandle; simp) rfl).2.2 (by decide)⟩

/-- Unfolding equation of `listLookup` on a cons cell. -/
theorem listLookup_cons (k0 : String) (v0 : BackendList)
    (rest : List (String × BackendList)) (k : String) :
    listLookup ((k0, v0) :: rest) k =
      if k0 = k then some v0 else listLookup rest k := by
  by_cases hk : k0 = k <;> simp [listLookup, hk]

/-- Looking up the updated key returns the mapped value. -/
theorem listLookup_updateApp_self (xs : List (String × BackendList))
    (k : String) (f : BackendList → BackendList) :
    listLookup (updateApp xs k f) k = (listLookup xs k).map f := by
  induction xs with
  | nil => rfl
  | cons p rest ih =>
    obtain ⟨k0, v⟩ := p
    by_cases hk : k0 = k
    · simp [updateApp, hk, listLookup_cons]
    · simp [updateApp, hk, listLookup_cons, ih]

/-- Looking up a different key is unaffected by the update. -/
theorem listLookup_updateApp_ne (xs : List (String × BackendList))
    (k k2 : String) (f : BackendList → BackendList) (h : k2 ≠ k) :
    listLookup (updateApp xs k f) k2 = listLookup xs k2 := by
  induction xs with
  | nil => rfl
  | cons p rest ih =>
    obtain ⟨k0, v⟩ := p
    have hne : ¬ (k = k2) := fun he => h he.symm
    by_cases hk : k0 = k
    · simp [updateApp, hk, listLookup_cons, hne]
    · by_cases h02 : k0 = k2
      · simp [updateApp, hk, listLookup_cons, h02, h]
      · simp [updateApp, hk, listLookup_cons, h02, ih]

/-- Appending a binding for an absent key makes it the lookup result. -/
theorem listLookup_append_right (xs : List (String × BackendList))
    (k : String) (v : BackendList) (h : listLookup xs k = none) :
    listLookup (xs ++ [(k, v)]) k = some v := by
  induction xs with
  | nil => simp [listLookup]
  | cons p rest ih =>
    obtain ⟨k0, v0⟩ := p
    rw [listLookup_cons] at h
    by_cases hk : k0 = k
    · rw [if_pos hk] at h
      cases h
    · rw [if_neg hk] at h
      rw [List.cons_append, listLookup_cons, if_neg hk]
      exact ih h

/-- An update whose function fixes the stored value is the identity. -/
theorem updateApp_eq_self (xs : List (String × BackendList)) (k : String)
    (f : BackendList → BackendList) (v : BackendList)
    (hv : listLookup xs k = some v) (hf : f v = v) :
    updateApp xs k f = xs := by
  induction xs with
  | nil => rfl
  | cons p rest ih =>
    obtain ⟨k0, v0⟩ := p
    rw [listLookup_cons] at hv
    by_cases hk : k0 = k
    · rw [if_pos hk] at hv
      injection hv with hv
      subst hv
      simp [updateApp, hk, hf]
    · rw [if_neg hk] at hv
      simp [updateApp, hk, ih hv]

/-- After adding an address the list contains it. -/
theorem has_instance_add (l : BackendList) (iid : String) (addr : Nat) :
    (l.add_instance iid addr).has_instance addr = true := by
  unfold BackendList.add_instance
  split
  next hfind =>
    simp [BackendList.has_instance, Backend.new]
  next hfind =>
    rcases hfo : l.instances.find? (fun b => b.address = addr) with _ | b
    · rw [hfo] at hfind
      simp at hfind
    · have hmem := List.mem_of_find?_eq_some hfo
      have haddr := List.find?_some hfo
      simp at haddr
      simp [BackendList.has_instance]
      exact ⟨b, hmem, haddr⟩

/-- Adding an address already in the list is a no-op. -/
theorem add_instance_of_has (l : BackendList) (iid : String) (addr : Nat)
    (h : l.has_instance addr = true) : l.add_instance iid addr = l := by
  simp [BackendList.has_instance] at h
  obtain ⟨b, hb, haddr⟩ := h
  rcases hfo : l.instances.find? (fun x => x.address = addr) with _ | b2
  · exfalso
    rw [List.find?_eq_none] at hfo
    have hcon := hfo b hb
    simp at hcon
    exact hcon haddr
  · unfold BackendList.add_instance
    rw [hfo]
    simp

/-- Adding the same address twice is a no-op the second time. -/
theorem add_instance_idem (l : BackendList) (iid iid2 : String)
    (addr : Nat) :
    (l.add_instance iid addr).add_instance iid2 addr =
      l.add_instance iid addr :=
  add_instance_of_has (l.add_instance iid addr) iid2 addr
    (has_instance_add l iid addr)

/-- Removing an address removes every instance carrying it. -/
theorem has_instance_remove (l : BackendList) (addr : Nat) :
    (l.remove_instance addr).has_instance addr = false := by
  simp [BackendList.remove_instance, BackendList.has_instance]

/-- A failed `isSome` lookup is a `none` lookup. -/
theorem listLookup_none_of_not_isSome (xs : List (String × BackendList))
    (k : String) (h : ¬ (listLookup xs k).isSome = true) :
    listLookup xs k = none := by
  cases ho : listLookup xs k with
  | none => rfl
  | some v => rw [ho] at h; simp at h

/-- The map after `add_instance` on a present app updates that app's list
in place. -/
theorem add_instance_present (m : BackendMap) (app iid : String)
    (addr : Nat) (l : BackendList)
    (hl : listLookup m.instances app = some l) :
    m.add_instance app iid addr =
      { m with instances :=
          updateApp m.instances app (fun l => l.add_instance iid addr) } := by
  unfold BackendMap.add_instance
  rw [if_pos (by simp [hl])]

/-- The map after `add_instance` on an absent app appends a fresh list. -/
theorem add_instance_absent (m : BackendMap) (app iid : String)
    (addr : Nat) (hl : listLookup m.instances app = none) :
    m.add_instance app iid addr =
      { m with instances :=
          m.instances ++ [(app, BackendList.new.add_instance iid addr)] } := by
  unfold BackendMap.add_instance
  rw [if_neg (by simp [hl])]

/-- C6: add_instance is idempotent. Afterwards the app has a backend at
that address; a second identical call leaves the whole map unchanged; when
the address is new in an existing app the appended Backend gets
id = next_id and next_id is incremented; when the app was absent a fresh
list is created whose single Backend gets id 0 and whose next_id is 1. -/
theorem c6_add_instance_idempotent (m : BackendMap) (app iid : String)
    (addr : Nat) :
    (m.add_instance app iid addr).has_backend app (Backend.new iid addr 0) =
      true ∧
    (m.add_instance app iid addr).add_instance app iid addr =
      m.add_instance app iid addr ∧
    (∀ l, listLookup m.instances app = some l →
      l.has_instance addr = false → l.next_id + 1 < 4294967296 →
      listLookup (m.add_instance app iid addr).instances app =
        some { instances := l.instances ++ [Backend.new iid addr l.next_id]
               next_id := l.next_id + 1 }) ∧
    (listLookup m.instances app = none →
      listLookup (m.add_instance app iid addr).instances app =
        some { instances := [Backend.new iid addr 0], next_id := 1 }) := by
  refine ⟨?_, ?_, ?_, ?_⟩
  · by_cases hsome : (listLookup m.instances app).isSome
    · rw [Option.isSome_iff_exists] at hsome
      obtain ⟨l, hl⟩ := hsome
      have hup : listLookup (m.add_instance app iid addr).instances app =
          some (l.add_instance iid addr) := by
        rw [add_instance_present m app iid addr l hl]
        simp [listLookup_updateApp_self, hl]
      unfold BackendMap.has_backend
      rw [hup]
      exact has_instance_add l iid addr
    · have hnone := listLookup_none_of_not_isSome m.instances app hsome
      have hup : listLookup (m.add_instance app iid addr).instances app =
          some (BackendList.new.add_instance iid addr) := by
        rw [add_instance_absent m app iid addr hnone]
        exact listLookup_append_right m.instances app _ hnone
      unfold BackendMap.has_backend
      rw [hup]
      exact has_instance_add BackendList.new iid addr
  · by_cases hsome : (listLookup m.instances app).isSome
    · rw [Option.isSome_iff_exists] at hsome
      obtain ⟨l, hl⟩ := hsome
      rw [add_instance_present m app iid addr l hl]
      have h2 : listLookup
          (updateApp m.instances app (fun l => l.add_instance iid addr))
          app = some (l.add_instance iid addr) := by
        simp [listLookup_updateApp_self, hl]
      rw [add_instance_present _ app iid addr _ h2]
      have h3 := updateApp_eq_self
        (updateApp m.instances app (fun l => l.add_instance iid addr)) app
        (fun l => l.add_instance iid addr) (l.add_instance iid addr) h2
        (add_instance_idem l iid iid addr)
      simp [h3]
    · have hnone := listLookup_none_of_not_isSome m.instances app hsome
      rw [add_instance_absent m app iid addr hnone]
      have h2 : listLookup
          (m.instances ++ [(app, BackendList.new.add_instance iid addr)])
          app = some (BackendList.new.add_instance iid addr) :=
        listLookup_append_right m.instances app _ hnone
      rw [add_instance_present _ app iid addr _ h2]
      have h3 := updateApp_eq_self
        (m.instances ++ [(app, BackendList.new.add_instance iid addr)]) app
        (fun l => l.add_instance iid addr)
        (BackendList.new.add_instance iid addr) h2
        (add_instance_idem BackendList.new iid iid addr)
      simp [h3]
  · intro l hl hhas hlt
    have hfind : l.instances.find? (fun b => b.address = addr) = none := by
      rw [List.find?_eq_none]
      intro b hb
      simp [BackendList.has_instance] at hhas
      simpa using hhas b hb
    have hadd : l.add_instance iid addr =
        { instances := l.instances ++ [Backend.new iid addr l.next_id]
          next_id := l.next_id + 1 } := by
      unfold BackendList.add_instance
      rw [if_pos (by simp [hfind])]
      simp [Nat.mod_eq_of_lt hlt]
    rw [add_instance_present m app iid addr l hl]
    simp [listLookup_updateApp_self, hl, hadd]
  · intro hnone
    rw [add_instance_absent m app iid addr hnone]
    have h2 : listLookup
        (m.instances ++ [(app, BackendList.new.add_instance iid addr)])
        app = some (BackendList.new.add_instance iid addr) :=
      listLookup_append_right m.instances app _ hnone
    rw [show ({ m with instances :=
        m.instances ++ [(app, BackendList.new.add_instance iid addr)] } :
        BackendMap).instances =
        m.instances ++ [(app, BackendList.new.add_instance iid addr)]
      from rfl]
    rw [h2]
    rfl

/-- Witness for C6 on a concrete map: one add creates the entry, the
second is a no-op, the fresh list carries id 0 and next_id 1. -/
theorem c6_add_instance_idempotent_witness :
    (BackendMap.add_instance BackendMap.new "svc" "b1" 8080).has_backend
      "svc" (Backend.new "b1" 8080 0) = true ∧
    (BackendMap.add_instance BackendMap.new "svc" "b1" 8080).add_instance
        "svc" "b1" 8080 =
      BackendMap.add_instance BackendMap.new "svc" "b1" 8080 ∧
    listLookup
        (BackendMap.add_instance BackendMap.new "svc" "b1" 8080).instances
        "svc" =
      some { instances := [Backend.new "b1" 8080 0], next_id := 1 } :=
  ⟨(c6_add_instance_idempotent BackendMap.new "svc" "b1" 8080).1,
   (c6_add_instance_idempotent BackendMap.new "svc" "b1" 8080).2.1,
   (c6_add_instance_idempotent BackendMap.new "svc" "b1" 8080).2.2.2 rfl⟩

/-- The map after `remove_instance` on a present app filters that app's
list in place, reporting no error. -/
theorem remove_instance_present (m : BackendMap) (app : String)
    (addr : Nat) (l : BackendList)
    (hl : listLookup m.instances app = some l) :
    m.remove_instance app addr =
      ({ m with instances :=
          updateApp m.instances app (fun l => l.remove_instance addr) },
       false) := by
  unfold BackendMap.remove_instance
  rw [if_pos (by simp [hl])]

/-- C8: after removal the app no longer has a backend at that address;
the surviving entries of that app's list are exactly the non-matching ones
in order, with their ids, and next_id is kept; other apps are untouched;
an absent app leaves the map unchanged and reports a non-fatal error
(flag true); an absent address within an existing app is a silent no-op
(map unchanged, no error). -/
theorem c8_remove_instance_effects (m : BackendMap) (app : String)
    (addr : Nat) :
    (m.remove_instance app addr).1.has_backend app (Backend.new "" addr 0) =
      false ∧
    (∀ l, listLookup m.instances app = some l →
      listLookup (m.remove_instance app addr).1.instances app =
        some { instances := l.instances.filter (fun b => b.address ≠ addr)
               next_id := l.next_id }) ∧
    (∀ app2, app2 ≠ app →
      listLookup (m.remove_instance app addr).1.instances app2 =
        listLookup m.instances app2) ∧
    (listLookup m.instances app = none →
      m.remove_instance app addr = (m, true)) ∧
    (∀ l, listLookup m.instances app = some l →
      l.has_instance addr = false →
      m.remove_instance app addr = (m, false)) := by
  refine ⟨?_, ?_, ?_, ?_, ?_⟩
  · by_cases hsome : (listLookup m.instances app).isSome
    · rw [Option.isSome_iff_exists] at hsome
      obtain ⟨l, hl⟩ := hsome
      have hup : listLookup (m.remove_instance app addr).1.instances app =
          some (l.remove_instance addr) := by
        rw [remove_instance_present m app addr l hl]
        simp [listLookup_updateApp_self, hl]
      unfold BackendMap.has_backend
      rw [hup]
      exact has_instance_remove l addr
    · have hnone := listLookup_none_of_not_isSome m.instances app hsome
      unfold BackendMap.remove_instance
      rw [if_neg (by simp [hnone])]
      unfold BackendMap.has_backend
      rw [show ((m, true) : BackendMap × Bool).1 = m from rfl, hnone]
  · intro l hl
    rw [remove_instance_present m app addr l hl]
    simp [listLookup_updateApp_self, hl, BackendList.remove_instance,
      decide_not]
  · intro app2 h2
    by_cases hsome : (listLookup m.instances app).isSome
    · rw [Option.isSome_iff_exists] at hsome
      obtain ⟨l, hl⟩ := hsome
      rw [remove_instance_present m app addr l hl]
      exact listLookup_updateApp_ne m.instances app app2 _ h2
    · have hnone := listLookup_none_of_not_isSome m.instances app hsome
      unfold BackendMap.remove_instance
      rw [if_neg (by simp [hnone])]
  · intro hnone
    unfold BackendMap.remove_instance
    rw [if_neg (by simp [hnone])]
  · intro l hl hhas
    have hrem : l.remove_instance addr = l := by
      unfold BackendList.remove_instance
      have hfe : l.instances.filter (fun b => b.address ≠ addr) =
          l.instances := by
        rw [List.filter_eq_self]
        intro b hb
        simp [BackendList.has_instance] at hhas
        simp [hhas b hb]
      rw [hfe]
    rw [remove_instance_present m app addr l hl]
    have := updateApp_eq_self m.instances app
      (fun l => l.remove_instance addr) l hl hrem
    simp [this]

/-- Witness map for C8: two apps, the first holding two backends. -/
def c8map : BackendMap :=
  { instances :=
      [("svc", { instances := [Backend.new "b1" 1 0, Backend.new "b2" 2 1]
                 next_id := 2 }),
       ("aux", { instances := [Backend.new "b3" 1 0], next_id := 1 })]
    max_failures := 3 }

/-- Witness for C8 on the concrete map: removing address 1 from "svc"
leaves only the id-1 backend there, leaves "aux" untouched, and removing
from an unknown app reports the non-fatal error with an unchanged map. -/
theorem c8_remove_instance_effects_witness :
    (c8map.remove_instance "svc" 1).1.has_backend "svc"
      (Backend.new "" 1 0) = false ∧
    listLookup (c8map.remove_instance "svc" 1).1.instances "svc" =
      some { instances := [Backend.new "b2" 2 1], next_id := 2 } ∧
    listLookup (c8map.remove_instance "svc" 1).1.instances "aux" =
      listLookup c8map.instances "aux" ∧
    c8map.remove_instance "nope" 5 = (c8map, true) :=
  ⟨(c8_remove_instance_effects c8map "svc" 1).1,
   (c8_remove_instance_effects c8map "svc" 1).2.1 _ rfl,
   (c8_remove_instance_effects c8map "svc" 1).2.2.1 "aux" (by decide),
   (c8_remove_instance_effects c8map "nope" 5).2.2.2.1 rfl⟩

/-- When the ids in a list are pairwise distinct, searching for the id of
a member finds exactly that member. -/
theorem find_id_of_nodup (xs : List Backend) (sid : Nat) (b : Backend)
    (hnd : (xs.map (fun x => x.id)).Nodup) (hb : b ∈ xs)
    (hid : b.id = sid) :
    xs.find? (fun x => x.id = sid) = some b := by
  induction xs with
  | nil => cases hb
  | cons x rest ih =>
    simp at hnd
    by_cases hx : x.id = sid
    · have hbx : b = x := by
        rcases List.mem_cons.mp hb with hxx | hbr
        · exact hxx
        · exact absurd (hid.trans hx.symm) (hnd.1 b hbr)
      subst hbx
      exact List.find?_cons_of_pos _ (by simpa using hx)
    · rcases List.mem_cons.mp hb with hxx | hbr
      · exact absurd (hxx ▸ hid) hx
      · rw [List.find?_cons_of_neg _ (by simpa using hx)]
        exact ih hnd.2 hbr

/-- C3: when the app's list (with its documented unique ids) contains an
eligible Backend whose id is the sticky session, the sticky path invokes
try_connect exactly once, on that Backend only, and returns its result
verbatim; when no Backend carries the sticky id or every carrier is
ineligible, and likewise when the app is absent, the call returns what
backend_from_app_id returns on the same state. -/
theorem c3_sticky_session (m : BackendMap) (app : String) (sid : Nat)
    (rnd : Nat → Nat) :
    (∀ l b, listLookup m.instances app = some l →
      (l.instances.map (fun x => x.id)).Nodup →
      b ∈ l.instances → b.id = sid → b.canOpenB = true →
      (m.backend_from_sticky_session app sid rnd).1 = (tryConnectCall b).1 ∧
      (m.backend_from_sticky_session app sid rnd).2.filter
          MCall.isTryConnect = [MCall.tryConnect b.id]) ∧
    (∀ l, listLookup m.instances app = some l →
      (∀ x ∈ l.instances, x.id = sid → x.canOpenB = false) →
      (m.backend_from_sticky_session app sid rnd).1 =
        (m.backend_from_app_id app rnd).1) ∧
    (listLookup m.instances app = none →
      m.backend_from_sticky_session app sid rnd =
        m.backend_from_app_id app rnd) := by
  refine ⟨?_, ?_, ?_⟩
  · intro l b hl hnd hb hid hopen
    have hfind := find_id_of_nodup l.instances sid b hnd hb hid
    have hsticky : l.find_sticky sid = (some b, [MCall.canOpen b.id]) := by
      unfold BackendList.find_sticky
      rw [hfind]
      simp [hopen]
    unfold BackendMap.backend_from_sticky_session
    rw [hl]
    rcases htc : tryConnectCall b with ⟨res, tr2⟩
    have htr2 : tr2 = [MCall.tryConnect b.id] := by
      unfold tryConnectCall at htc
      rcases hc : b.connectResult with s | e <;> rw [hc] at htc <;>
        injection htc with h1 h2 <;> exact h2.symm
    subst htr2
    simp [hsticky, htc, MCall.isTryConnect]
  · intro l hl hclosed
    have hsticky : (l.find_sticky sid).1 = none := by
      unfold BackendList.find_sticky
      rcases hfo : l.instances.find? (fun x => x.id = sid) with _ | x
      · rw [hfo]
      · rw [hfo]
        have hmem := List.mem_of_find?_eq_some hfo
        have hxid := List.find?_some hfo
        simp at hxid
        simp [hclosed x hmem hxid]
    unfold BackendMap.backend_from_sticky_session
    rw [hl]
    rcases hfs : l.find_sticky sid with ⟨ob, tr⟩
    rw [hfs] at hsticky
    simp at hsticky
    subst hsticky
    rcases hb2 : m.backend_from_app_id app rnd with ⟨res, tr2⟩
    simp [hfs, hb2]
  · intro hnone
    unfold BackendMap.backend_from_sticky_session
    rw [hnone]
    rfl

/-- Witness map for C3: two backends with ids 0 and 1; id 1 is eligible
and its connect succeeds with socket handle 5. -/
def c3map : BackendMap :=
  { instances :=
      [("svc",
        { instances :=
            [{ instance_id := "b1", address := 1, id := 0,
               active_connections := 0, failures := 0, canOpenB := true,
               connectResult := .ok 9 },
             { instance_id := "b2", address := 2, id := 1,
               active_connections := 0, failures := 0, canOpenB := true,
               connectResult := .ok 5 }]
          next_id := 2 })]
    max_failures := 3 }

/-- The id-1 backend of the C3 witness map. -/
def c3backend : Backend :=
  { instance_id := "b2", address := 2, id := 1, active_connections := 0,
    failures := 0, canOpenB := true, connectResult := .ok 5 }

/-- Witness for C3: the sticky call with session 1 returns that backend's
connect result (socket 5) having invoked try_connect only on id 1, and a
sticky call on an unknown app equals the non-sticky call. -/
theorem c3_sticky_session_witness :
    (c3map.backend_from_sticky_session "svc" 1 (fun _ => 0)).1 =
      (tryConnectCall c3backend).1 ∧
    (c3map.backend_from_sticky_session "svc" 1 (fun _ => 0)).2.filter
        MCall.isTryConnect = [MCall.tryConnect c3backend.id] ∧
    BackendMap.backend_from_sticky_session
        { instances := [], max_failures := 3 } "svc" 1 (fun _ => 0) =
      BackendMap.backend_from_app_id
        { instances := [], max_failures := 3 } "svc" (fun _ => 0) :=
  ⟨((c3_sticky_session c3map "svc" 1 (fun _ => 0)).1 _ c3backend rfl
      (by decide) (by decide) rfl rfl).1,
   ((c3_sticky_session c3map "svc" 1 (fun _ => 0)).1 _ c3backend rfl
      (by decide) (by decide) rfl rfl).2,
   (c3_sticky_session { instances := [], max_failures := 3 } "svc" 1
      (fun _ => 0)).2.2 rfl⟩

/-- Unfolding equation of `backend_from_app_id` on a present app. -/
theorem backend_from_app_id_some (m : BackendMap) (app : String)
    (rnd : Nat → Nat) (l : BackendList)
    (hl : listLookup m.instances app = some l) :
    m.backend_from_app_id app rnd =
      if l.instances.length = 0 then (.error .NoBackendAvailable, [])
      else selectLoop l rnd m.max_failures 0 := by
  unfold BackendMap.backend_from_app_id
  rw [hl]

/-- With no eligible backend, `next_available_instance` reports none after
checking `can_open` on every instance. -/
theorem next_available_none (l : BackendList) (rnd : Nat)
    (h : l.instances.filter (fun b => b.canOpenB) = []) :
    l.next_available_instance rnd =
      (none, l.instances.map (fun b => MCall.canOpen b.id)) := by
  unfold BackendList.next_available_instance BackendList.available_instances
  simp [h]

/-- With at least one eligible backend, `next_available_instance` selects
the one at index `rnd % count` of the eligible list. -/
theorem next_available_some (l : BackendList) (rnd : Nat)
    (avail : List Backend)
    (havail : avail = l.instances.filter (fun b => b.canOpenB))
    (hne : avail ≠ []) :
    l.next_available_instance rnd =
      (some (avail.getD (rnd % avail.length) default),
       l.instances.map (fun b => MCall.canOpen b.id)) := by
  unfold BackendList.next_available_instance BackendList.available_instances
  rw [← havail]
  simp [hne]

/-- A map whose single app has one eligible backend whose connect fails
with a non-pool error. -/
def c2map : BackendMap :=
  { instances :=
      [("svc",
        { instances :=
            [{ instance_id := "b1", address := 1, id := 0,
               active_connections := 0, failures := 0, canOpenB := true,
               connectResult := .fail (.Other 7) }]
          next_id := 1 })]
    max_failures := 3 }

/-- C2 is false as stated: on an app whose only (eligible) backend fails
try_connect, backend_from_app_id returns the underlying connect error
verbatim — not NoBackendAvailable — because every branch of the retry
loop's body returns on the first iteration, so the failure is neither
swallowed nor retried. -/
theorem c2_counterexample :
    (c2map.backend_from_app_id "svc" (fun _ => 0)).1 =
      .error (.Other 7) ∧
    ConnectionError.Other 7 ≠ ConnectionError.NoBackendAvailable :=
  ⟨rfl, by decide⟩

/-- C2 amended: an absent app or an empty list yields NoBackendAvailable
with no Backend method invoked; with a positive retry budget and no
eligible backend, NoBackendAvailable after only can_open checks; with a
positive budget and at least one eligible backend, exactly one try_connect
is attempted — on the eligible backend selected by the first random draw —
and its result, success or the underlying connect error, is returned
verbatim: the loop body returns on every path, so the budget beyond the
first iteration is never used and connect errors are propagated on the
non-sticky path. -/
theorem c2_amended_single_attempt (m : BackendMap) (app : String)
    (rnd : Nat → Nat) :
    (listLookup m.instances app = none →
      m.backend_from_app_id app rnd = (.error .NoBackendAvailable, [])) ∧
    (∀ l, listLookup m.instances app = some l → l.instances = [] →
      m.backend_from_app_id app rnd = (.error .NoBackendAvailable, [])) ∧
    (∀ l, listLookup m.instances app = some l → 0 < m.max_failures →
      l.instances ≠ [] →
      l.instances.filter (fun b => b.canOpenB) = [] →
      m.backend_from_app_id app rnd =
        (.error .NoBackendAvailable,
         l.instances.map (fun b => MCall.canOpen b.id))) ∧
    (∀ l avail, listLookup m.instances app = some l → 0 < m.max_failures →
      avail = l.instances.filter (fun b => b.canOpenB) → avail ≠ [] →
      (m.backend_from_app_id app rnd).1 =
        (tryConnectCall (avail.getD (rnd 0 % avail.length) default)).1 ∧
      (m.backend_from_app_id app rnd).2.filter MCall.isTryConnect =
        [MCall.tryConnect
          (avail.getD (rnd 0 % avail.length) default).id]) := by
  refine ⟨?_, ?_, ?_, ?_⟩
  · intro hnone
    unfold BackendMap.backend_from_app_id
    rw [hnone]
  · intro l hl hemp
    rw [backend_from_app_id_some m app rnd l hl]
    simp [hemp]
  · intro l hl hfuel hne havail
    obtain ⟨fuel, hf⟩ := Nat.exists_eq_add_of_lt hfuel
    rw [backend_from_app_id_some m app rnd l hl]
    rw [if_neg (by simpa using hne)]
    rw [hf]
    simp only [Nat.zero_add]
    have hnext := next_available_none l (rnd 0) havail
    simp [selectLoop, hnext]
  · intro l avail hl hfuel havail hne
    obtain ⟨fuel, hf⟩ := Nat.exists_eq_add_of_lt hfuel
    have hlne : l.instances ≠ [] := by
      intro h0
      rw [h0] at havail
      simp at havail
      exact hne havail
    set bsel := avail.getD (rnd 0 % avail.length) default with hbsel
    have hnext := next_available_some l (rnd 0) avail havail hne
    rw [← hbsel] at hnext
    rcases htc : tryConnectCall bsel with ⟨res, tr2⟩
    have htr2 : tr2 = [MCall.tryConnect bsel.id] := by
      unfold tryConnectCall at htc
      rcases hc : bsel.connectResult with s | e <;> rw [hc] at htc <;>
        injection htc with h1 h2 <;> exact h2.symm
    subst htr2
    have hsel : m.backend_from_app_id app rnd =
        (res, l.instances.map (fun b => MCall.canOpen b.id) ++
          [MCall.tryConnect bsel.id]) := by
      rw [backend_from_app_id_some m app rnd l hl]
      rw [if_neg (by simpa using hlne)]
      rw [hf]
      simp only [Nat.zero_add]
      simp [selectLoop, hnext, htc]
    rw [hsel]
    refine ⟨?_, ?_⟩
    · simp [htc]
    · simp [List.filter_append, MCall.isTryConnect]

/-- The single backend of the C2 witness map. -/
def c2backend : Backend :=
  { instance_id := "b1", address := 1, id := 0, active_connections := 0,
    failures := 0, canOpenB := true, connectResult := .fail (.Other 7) }

/-- Witness for C2 amended: a fresh map yields NoBackendAvailable with an
empty trace, and on the concrete one-backend map exactly one try_connect
happens and its error is returned verbatim. -/
theorem c2_amended_single_attempt_witness :
    BackendMap.backend_from_app_id BackendMap.new "svc" (fun _ => 0) =
      (.error .NoBackendAvailable, []) ∧
    (c2map.backend_from_app_id "svc" (fun _ => 0)).1 =
      (tryConnectCall c2backend).1 ∧
    (c2map.backend_from_app_id "svc" (fun _ => 0)).2.filter
        MCall.isTryConnect = [MCall.tryConnect 0] :=
  ⟨(c2_amended_single_attempt BackendMap.new "svc" (fun _ => 0)).1 rfl,
   ((c2_amended_single_attempt c2map "svc" (fun _ => 0)).2.2.2 _ _ rfl
      (by decide) rfl (by decide)).1,
   ((c2_amended_single_attempt c2map "svc" (fun _ => 0)).2.2.2 _ _ rfl
      (by decide) rfl (by decide)).2⟩

/-- Executing an appended operation list is sequential composition. -/
theorem exec_append (ops1 ops2 : List ListOp) : ∀ l : BackendList,
    BackendList.exec l (ops1 ++ ops2) =
      BackendList.exec (BackendList.exec l ops1) ops2 := by
  induction ops1 with
  | nil => intro l; rfl
  | cons op rest ih =>
    intro l
    show BackendList.exec (l.applyOp op) (rest ++ ops2) =
      BackendList.exec (BackendList.exec (l.applyOp op) rest) ops2
    exact ih _

/-- Main induction: starting from a list whose ids are all below next_id
and whose next_id cannot overflow within the remaining operations, every
execution keeps next_id within the operation budget, never decreases it,
keeps every stored id below it, hands out created ids at or above the
starting next_id, and hands them out in strictly increasing order. -/
theorem exec_inv (ops : List ListOp) : ∀ l : BackendList,
    (∀ b ∈ l.instances, b.id < l.next_id) →
    l.next_id + ops.length < 4294967296 →
    ((BackendList.exec l ops).next_id ≤ l.next_id + ops.length ∧
     l.next_id ≤ (BackendList.exec l ops).next_id ∧
     (∀ b ∈ (BackendList.exec l ops).instances,
        b.id < (BackendList.exec l ops).next_id) ∧
     (∀ i ∈ createdIds l ops, l.next_id ≤ i) ∧
     (createdIds l ops).Pairwise (· < ·)) := by
  induction ops with
  | nil =>
    intro l hb hn
    refine ⟨by simp [BackendList.exec], by simp [BackendList.exec], ?_,
      ?_, ?_⟩
    · simpa [BackendList.exec] using hb
    · simp [createdIds]
    · simp [createdIds]
  | cons op rest ih =>
    intro l hb hn
    have hexec : BackendList.exec l (op :: rest) =
        BackendList.exec (l.applyOp op) rest := rfl
    have hlen : (op :: rest).length = rest.length + 1 := rfl
    cases op with
    | add iid addr =>
      by_cases hf : (l.instances.find? (fun b => b.address = addr)).isNone
      · have hadd : l.applyOp (ListOp.add iid addr) =
            { instances := l.instances ++ [Backend.new iid addr l.next_id]
              next_id := l.next_id + 1 } := by
          simp only [BackendList.applyOp, BackendList.add_instance]
          rw [if_pos hf]
          rw [Nat.mod_eq_of_lt (by rw [hlen] at hn; omega)]
        have hnid : (l.applyOp (ListOp.add iid addr)).next_id =
            l.next_id + 1 := by rw [hadd]
        have hb2 : ∀ b ∈ (l.applyOp (ListOp.add iid addr)).instances,
            b.id < (l.applyOp (ListOp.add iid addr)).next_id := by
          rw [hadd]
          intro b hbm
          simp at hbm
          rcases hbm with h1 | h2
          · exact Nat.lt_succ_of_lt (hb b h1)
          · rw [h2]
            simp [Backend.new]
        have hn2 : (l.applyOp (ListOp.add iid addr)).next_id + rest.length <
            4294967296 := by
          rw [hnid]
          rw [hlen] at hn
          omega
        obtain ⟨ih1, ih2, ih3, ih4, ih5⟩ := ih _ hb2 hn2
        have hcr : createdIds l (ListOp.add iid addr :: rest) =
            l.next_id :: createdIds (l.applyOp (ListOp.add iid addr))
              rest := by
          simp [createdIds, hf]
        rw [hnid] at ih1 ih2 ih4
        refine ⟨?_, ?_, ?_, ?_, ?_⟩
        · rw [hexec, hlen]
          omega
        · rw [hexec]
          omega
        · rw [hexec]
          exact ih3
        · rw [hcr]
          intro i hi
          rcases List.mem_cons.mp hi with h1 | h2
          · omega
          · have := ih4 i h2
            omega
        · rw [hcr]
          rw [List.pairwise_cons]
          refine ⟨?_, ih5⟩
          intro i hi
          have := ih4 i hi
          omega
      · have hadd : l.applyOp (ListOp.add iid addr) = l := by
          simp only [BackendList.applyOp, BackendList.add_instance]
          rw [if_neg hf]
        have hn2 : l.next_id + rest.length < 4294967296 := by
          rw [hlen] at hn
          omega
        obtain ⟨ih1, ih2, ih3, ih4, ih5⟩ := ih l hb hn2
        have hcr : createdIds l (ListOp.add iid addr :: rest) =
            createdIds l rest := by
          simp [createdIds, hf]
          rw [hadd]
        rw [hexec, hadd, hcr, hlen]
        exact ⟨by omega, ih2, ih3, ih4, ih5⟩
    | remove addr =>
      have hnid : (l.applyOp (ListOp.remove addr)).next_id = l.next_id :=
        rfl
      have hb2 : ∀ b ∈ (l.applyOp (ListOp.remove addr)).instances,
          b.id < (l.applyOp (ListOp.remove addr)).next_id := by
        intro b hbm
        have hbl : b ∈ l.instances := by
          have : b ∈ l.instances.filter (fun x => x.address ≠ addr) := hbm
          exact List.mem_of_mem_filter this
        rw [hnid]
        exact hb b hbl
      have hn2 : (l.applyOp (ListOp.remove addr)).next_id + rest.length <
          4294967296 := by
        rw [hnid]
        rw [hlen] at hn
        omega
      obtain ⟨ih1, ih2, ih3, ih4, ih5⟩ := ih _ hb2 hn2
      rw [hnid] at ih1 ih2 ih4
      have hcr : createdIds l (ListOp.remove addr :: rest) =
          createdIds (l.applyOp (ListOp.remove addr)) rest := by
        simp [createdIds]
      rw [hexec, hcr, hlen]
      exact ⟨by omega, ih2, ih3, ih4, ih5⟩

/-- C7: within the lifetime of a BackendList (any operation sequence short
of exhausting the 32-bit id space, executed from a fresh list), next_id
stays strictly above every stored id, next_id never decreases across any
prefix of the lifetime — remove in particular never touches it — and the
ids handed to created Backends are strictly increasing, hence never
reused, even after removals. -/
theorem c7_ids_never_reused (ops : List ListOp)
    (h : ops.length < 4294967296) :
    (∀ b ∈ (BackendList.exec BackendList.new ops).instances,
       b.id < (BackendList.exec BackendList.new ops).next_id) ∧
    (∀ pre suf, ops = pre ++ suf →
       (BackendList.exec BackendList.new pre).next_id ≤
         (BackendList.exec BackendList.new ops).next_id) ∧
    (createdIds BackendList.new ops).Pairwise (· < ·) ∧
    (∀ (l : BackendList) (addr : Nat),
       (l.remove_instance addr).next_id = l.next_id) := by
  have hb0 : ∀ b ∈ BackendList.new.instances,
      b.id < BackendList.new.next_id := by
    simp [BackendList.new]
  have hn0 : BackendList.new.next_id + ops.length < 4294967296 := by
    simp [BackendList.new]
    omega
  obtain ⟨e1, e2, e3, e4, e5⟩ := exec_inv ops BackendList.new hb0 hn0
  refine ⟨e3, ?_, e5, fun l addr => rfl⟩
  intro pre suf hps
  subst hps
  rw [exec_append]
  simp at h
  obtain ⟨p1, p2, p3, p4, p5⟩ := exec_inv pre BackendList.new hb0
    (by simp [BackendList.new]; omega)
  have hp1 : (BackendList.exec BackendList.new pre).next_id ≤ pre.length :=
    by simpa [BackendList.new] using p1
  have hmid : (BackendList.exec BackendList.new pre).next_id + suf.length <
      4294967296 := by omega
  exact (exec_inv suf (BackendList.exec BackendList.new pre) p3 hmid).2.1

/-- A concrete lifetime for the C7 witness: two adds, a removal, then a
third add, which must receive the never-reused id 2. -/
def c7ops : List ListOp :=
  [.add "a" 1, .add "b" 2, .remove 1, .add "c" 3]

/-- Witness for C7 on the concrete lifetime: the stored ids stay below
next_id and the created ids 0, 1, 2 are strictly increasing. -/
theorem c7_ids_never_reused_witness :
    (∀ b ∈ (BackendList.exec BackendList.new c7ops).instances,
       b.id < (BackendList.exec BackendList.new c7ops).next_id) ∧
    (createdIds BackendList.new c7ops).Pairwise (· < ·) :=
  ⟨(c7_ids_never_reused c7ops (by decide)).1,
   (c7_ids_never_reused c7ops (by decide)).2.2.1⟩

end Sozu
